import Mathlib

/-!
Shallow embedding of the cw721-base contract core
(`src/contracts/cw721-base/src/execute.rs` and `state.rs`):
token records, per-token approvals, operator grants, the supply counter,
the authorization checks and the eight state-mutating handlers.
Storage maps are embedded as association lists; machine integers (`u64`)
as `Nat` with explicit reduction modulo `2 ^ 64`.
-/

/-- Decidable equality of `Except` values, component-wise. -/
def exceptDecEq {ε α : Type} [DecidableEq ε] [DecidableEq α] :
    (a b : Except ε α) → Decidable (a = b)
  | Except.error e, Except.error f =>
      if h : e = f then Decidable.isTrue (by rw [h])
      else Decidable.isFalse (fun hh => h (by cases hh; rfl))
  | Except.error _, Except.ok _ => Decidable.isFalse (fun hh => by cases hh)
  | Except.ok _, Except.error _ => Decidable.isFalse (fun hh => by cases hh)
  | Except.ok a, Except.ok b =>
      if h : a = b then Decidable.isTrue (by rw [h])
      else Decidable.isFalse (fun hh => h (by cases hh; rfl))

instance {ε α : Type} [DecidableEq ε] [DecidableEq α] : DecidableEq (Except ε α) :=
  exceptDecEq

namespace Cw721

/-- Validated identity, as produced by the host's address validator. -/
abbrev Addr := String

/-- Current block information used for expiration comparisons
(height and timestamp of `cosmwasm_std::BlockInfo`). -/
structure BlockInfo where
  height : Nat
  time : Nat
deriving DecidableEq

/-- Execution environment: the block the operation runs in. -/
structure Env where
  block : BlockInfo
deriving DecidableEq

/-- Message metadata: the (pre-validated) sender of the operation. -/
structure MessageInfo where
  sender : Addr
deriving DecidableEq

/-- Modelled from the spec: `Expiration` (the `cw721`/`cw-utils` type is not
under `src/`) is one of: never, at a given block height, at a given
timestamp. -/
inductive Expiration where
  | at_height : Nat → Expiration
  | at_time : Nat → Expiration
  | never : Expiration
deriving DecidableEq

/-- Modelled from the spec: an expiration is elapsed at a block when the
block's height (resp. timestamp) has reached the stored bound; `never` is
elapsed at no block. -/
def Expiration.is_expired (e : Expiration) (block : BlockInfo) : Bool :=
  match e with
  | .at_height h => block.height ≥ h
  | .at_time t => block.time ≥ t
  | .never => false

/-- Modelled from the spec: the default expiration, used when the caller
omits one, is `never`. -/
def Expiration.default_value : Expiration := Expiration.never

/-- Per-token approval: a spender and when the approval expires
(`state.rs`, `struct Approval`). -/
structure Approval where
  spender : Addr
  expires : Expiration
deriving DecidableEq

/-- Forwarding of expiry to the approval's expiration
(`state.rs`, `impl Approval`). -/
def Approval.is_expired (a : Approval) (block : BlockInfo) : Bool :=
  a.expires.is_expired block

/-- Stored record of one token (`state.rs`, `struct TokenInfo<T>`). -/
structure TokenInfo (T : Type) where
  owner : Addr
  approvals : List Approval
  token_uri : Option String
  extension : T
deriving DecidableEq

/-- Modelled from the spec: the error taxonomy surfaced by the handlers
(`error.rs` is not under `src/`). `Claimed` is the code's name for the
spec's `AlreadyExists`; `NotFound` models the storage error of loading a
missing record; `InvalidAddress` models a failing identity validation. -/
inductive ContractError where
  | Unauthorized : ContractError
  | Claimed : ContractError
  | Expired : ContractError
  | NotFound : ContractError
  | InvalidAddress : ContractError
deriving DecidableEq

/-- Modelled from the spec: the identity validator accepts any non-empty
raw string and fails on a malformed (empty) one. -/
def addr_validate (raw : String) : Except ContractError Addr :=
  if raw = ("") then Except.error ContractError.InvalidAddress else Except.ok raw

/-- Association-list lookup, embedding `Map::may_load` /
`IndexedMap::load`'s found-or-not outcome. -/
def mapLoad {K V : Type} [DecidableEq K] (m : List (K × V)) (k : K) : Option V :=
  (m.find? (fun p => decide (p.1 = k))).map Prod.snd

/-- Association-list store, embedding `Map::save` / `IndexedMap::save`:
the new value replaces any previous binding of the key. -/
def mapSave {K V : Type} [DecidableEq K] (m : List (K × V)) (k : K) (v : V) :
    List (K × V) :=
  (k, v) :: m.filter (fun p => decide (p.1 ≠ k))

/-- Association-list removal, embedding `Map::remove` /
`IndexedMap::remove`. -/
def mapRemove {K V : Type} [DecidableEq K] (m : List (K × V)) (k : K) :
    List (K × V) :=
  m.filter (fun p => decide (p.1 ≠ k))

/-- The `u64` modulus: counter arithmetic reduces modulo this. -/
def u64Mod : Nat := 2 ^ 64

/-- Contract state: the storage items of `state.rs`'s `Cw721Contract`
(the minter item, the token-count item, the operator-grant map and the
token map). -/
structure State (T : Type) where
  minter : Addr
  token_count : Nat
  operators : List ((Addr × Addr) × Expiration)
  tokens : List (String × TokenInfo T)
deriving DecidableEq

/-- Reading the counter (`state.rs`, `token_count`): an unset item reads
as the default `0`; we keep the counter always materialised. -/
def tokenCount {T : Type} (s : State T) : Nat := s.token_count

/-- Incrementing the counter (`state.rs`, `increment_tokens`): `val + 1`
on a `u64`, embedded with wrap-around modulo `2 ^ 64`. -/
def increment_tokens {T : Type} (s : State T) : State T :=
  { s with token_count := (tokenCount s + 1) % u64Mod }

/-- Decrementing the counter (`state.rs`, `decrement_tokens`): `val - 1`
on a `u64`, embedded with wrap-around modulo `2 ^ 64`. -/
def decrement_tokens {T : Type} (s : State T) : State T :=
  { s with token_count := (tokenCount s + (u64Mod - 1)) % u64Mod }

/-- The transfer-authorization check (`execute.rs`, `check_can_send`):
the owner may send; a non-expired per-token approval held by the sender
may send; a non-expired operator grant keyed by (owner, sender) may send;
anything else is `Unauthorized`. -/
def check_can_send {T : Type} (s : State T) (env : Env) (info : MessageInfo)
    (token : TokenInfo T) : Except ContractError Unit :=
  if token.owner = info.sender then Except.ok ()
  else if token.approvals.any
      (fun apr => decide (apr.spender = info.sender) && !(apr.is_expired env.block)) then
    Except.ok ()
  else
    match mapLoad s.operators (token.owner, info.sender) with
    | some ex =>
        if ex.is_expired env.block then Except.error ContractError.Unauthorized
        else Except.ok ()
    | none => Except.error ContractError.Unauthorized

/-- The approval-authorization check (`execute.rs`, `check_can_approve`):
the owner may approve; a non-expired operator grant keyed by
(owner, sender) may approve; anything else is `Unauthorized`. -/
def check_can_approve {T : Type} (s : State T) (env : Env) (info : MessageInfo)
    (token : TokenInfo T) : Except ContractError Unit :=
  if token.owner = info.sender then Except.ok ()
  else
    match mapLoad s.operators (token.owner, info.sender) with
    | some ex =>
        if ex.is_expired env.block then Except.error ContractError.Unauthorized
        else Except.ok ()
    | none => Except.error ContractError.Unauthorized

/-- Outbound `Cw721ReceiveMsg` wrapped into a cosmos message addressed to
the receiving contract (`packages/cw721/src/receiver.rs`); the payload is
kept opaque. -/
structure CwMsg where
  contract : String
  sender : String
  token_id : String
  msg : String
deriving DecidableEq

/-- Handler outcome: the attributes and outbound messages of a
`cosmwasm_std::Response`. -/
structure Response where
  attributes : List (String × String)
  messages : List CwMsg
deriving DecidableEq

/-- The default (empty) response, `Response::default()`. -/
def Response.empty : Response := { attributes := [], messages := [] }

/-- The mint request (`MintMsg<T>` as consumed by `execute.rs`'s `mint`). -/
structure MintMsg (T : Type) where
  token_id : String
  owner : String
  token_uri : Option String
  extension : T
deriving DecidableEq

/-- The `mint` handler (`execute.rs`, `mint`): only the configured minter
may mint; the new record gets the validated owner, no approvals, the given
uri and extension; an id with a live record is rejected as `Claimed`; the
counter is incremented. `fmt` supplies the `Debug` rendering of the token
used by the `token_info` attribute. -/
def mint {T : Type} (fmt : TokenInfo T → String) (s : State T)
    (info : MessageInfo) (msg : MintMsg T) :
    Except ContractError (State T × Response) :=
  if info.sender ≠ s.minter then Except.error ContractError.Unauthorized
  else
    match addr_validate msg.owner with
    | Except.error e => Except.error e
    | Except.ok owner_addr =>
      match mapLoad s.tokens msg.token_id with
      | some _ => Except.error ContractError.Claimed
      | none =>
        Except.ok
          (increment_tokens
            { s with
                tokens := mapSave s.tokens msg.token_id
                  (TokenInfo.mk owner_addr [] msg.token_uri msg.extension) },
            { attributes :=
                [(("token_info"), fmt (TokenInfo.mk owner_addr [] msg.token_uri msg.extension)),
                 (("action"), ("mint")),
                 (("minter"), info.sender),
                 (("owner"), msg.owner),
                 (("token_id"), msg.token_id)],
              messages := [] })

/-- The transfer/send core (`execute.rs`, `_transfer_nft`): load the
record, check transfer authorization, set the owner to the validated
recipient, clear the approvals, save. -/
def transfer_nft_core {T : Type} (s : State T) (env : Env) (info : MessageInfo)
    (recipient : String) (token_id : String) :
    Except ContractError (State T × TokenInfo T) :=
  match mapLoad s.tokens token_id with
  | none => Except.error ContractError.NotFound
  | some token =>
    match check_can_send s env info token with
    | Except.error e => Except.error e
    | Except.ok _ =>
      match addr_validate recipient with
      | Except.error e => Except.error e
      | Except.ok recipient_addr =>
        Except.ok
          ({ s with
              tokens := mapSave s.tokens token_id
                { token with owner := recipient_addr, approvals := [] } },
            { token with owner := recipient_addr, approvals := [] })

/-- The `transfer_nft` handler (`execute.rs`, `transfer_nft`). -/
def transfer_nft {T : Type} (s : State T) (env : Env) (info : MessageInfo)
    (recipient : String) (token_id : String) :
    Except ContractError (State T × Response) :=
  match transfer_nft_core s env info recipient token_id with
  | Except.error e => Except.error e
  | Except.ok (s', _) =>
    Except.ok (s',
      { attributes :=
          [(("action"), ("transfer_nft")),
           (("sender"), info.sender),
           (("recipient"), recipient),
           (("token_id"), token_id)],
        messages := [] })

/-- The `send_nft` handler (`execute.rs`, `send_nft`): the transfer core
plus one outbound receive notification addressed to the target
contract. -/
def send_nft {T : Type} (s : State T) (env : Env) (info : MessageInfo)
    (contract : String) (token_id : String) (msg : String) :
    Except ContractError (State T × Response) :=
  match transfer_nft_core s env info contract token_id with
  | Except.error e => Except.error e
  | Except.ok (s', _) =>
    Except.ok (s',
      { attributes :=
          [(("action"), ("send_nft")),
           (("sender"), info.sender),
           (("recipient"), contract),
           (("token_id"), token_id)],
        messages :=
          [{ contract := contract, sender := info.sender, token_id := token_id,
             msg := msg }] })

/-- The approve/revoke core (`execute.rs`, `_update_approvals`): load the
record, check approve authorization, drop any approval of the spender,
and when adding, reject an already-elapsed expiration as `Expired` before
anything is saved, else push the new approval; finally save. -/
def update_approvals_core {T : Type} (s : State T) (env : Env) (info : MessageInfo)
    (spender : String) (token_id : String) (add : Bool)
    (expires : Option Expiration) :
    Except ContractError (State T × TokenInfo T) :=
  match mapLoad s.tokens token_id with
  | none => Except.error ContractError.NotFound
  | some token =>
    match check_can_approve s env info token with
    | Except.error e => Except.error e
    | Except.ok _ =>
      match addr_validate spender with
      | Except.error e => Except.error e
      | Except.ok spender_addr =>
        if add then
          if (expires.getD Expiration.default_value).is_expired env.block then
            Except.error ContractError.Expired
          else
            Except.ok
              ({ s with
                  tokens := mapSave s.tokens token_id
                    { token with approvals :=
                        token.approvals.filter (fun apr => decide (apr.spender ≠ spender_addr)) ++
                          [Approval.mk spender_addr (expires.getD Expiration.default_value)] } },
                { token with approvals :=
                    token.approvals.filter (fun apr => decide (apr.spender ≠ spender_addr)) ++
                      [Approval.mk spender_addr (expires.getD Expiration.default_value)] })
        else
          Except.ok
            ({ s with
                tokens := mapSave s.tokens token_id
                  { token with approvals :=
                      token.approvals.filter (fun apr => decide (apr.spender ≠ spender_addr)) } },
              { token with approvals :=
                  token.approvals.filter (fun apr => decide (apr.spender ≠ spender_addr)) })

/-- The `approve` handler (`execute.rs`, `approve`). -/
def approve {T : Type} (s : State T) (env : Env) (info : MessageInfo)
    (spender : String) (token_id : String) (expires : Option Expiration) :
    Except ContractError (State T × Response) :=
  match update_approvals_core s env info spender token_id true expires with
  | Except.error e => Except.error e
  | Except.ok (s', _) =>
    Except.ok (s',
      { attributes :=
          [(("action"), ("approve")),
           (("sender"), info.sender),
           (("spender"), spender),
           (("token_id"), token_id)],
        messages := [] })

/-- The `revoke` handler (`execute.rs`, `revoke`). -/
def revoke {T : Type} (s : State T) (env : Env) (info : MessageInfo)
    (spender : String) (token_id : String) :
    Except ContractError (State T × Response) :=
  match update_approvals_core s env info spender token_id false none with
  | Except.error e => Except.error e
  | Except.ok (s', _) =>
    Except.ok (s',
      { attributes :=
          [(("action"), ("revoke")),
           (("sender"), info.sender),
           (("spender"), spender),
           (("token_id"), token_id)],
        messages := [] })

/-- The `approve_all` handler (`execute.rs`, `approve_all`): an elapsed
expiration is rejected as `Expired`; otherwise the grant keyed by
(sender, validated operator) is upserted. -/
def approve_all {T : Type} (s : State T) (env : Env) (info : MessageInfo)
    (operator : String) (expires : Option Expiration) :
    Except ContractError (State T × Response) :=
  if (expires.getD Expiration.default_value).is_expired env.block then
    Except.error ContractError.Expired
  else
    match addr_validate operator with
    | Except.error e => Except.error e
    | Except.ok operator_addr =>
      Except.ok
        ({ s with operators := (mapSave s.operators (info.sender, operator_addr)
            (expires.getD Expiration.default_value)) },
        { attributes :=
            [(("action"), ("approve_all")),
             (("sender"), info.sender),
             (("operator"), operator)],
          messages := [] })

/-- The `revoke_all` handler (`execute.rs`, `revoke_all`): removes the
grant keyed by (sender, validated operator). -/
def revoke_all {T : Type} (s : State T) (info : MessageInfo)
    (operator : String) :
    Except ContractError (State T × Response) :=
  match addr_validate operator with
  | Except.error e => Except.error e
  | Except.ok operator_addr =>
    Except.ok ({ s with operators := mapRemove s.operators (info.sender, operator_addr) },
      { attributes :=
          [(("action"), ("revoke_all")),
           (("sender"), info.sender),
           (("operator"), operator)],
        messages := [] })

/-- The `burn` handler (`execute.rs`, `burn`): load the record, check
transfer authorization, remove the record and decrement the counter. -/
def burn {T : Type} (s : State T) (env : Env) (info : MessageInfo)
    (token_id : String) :
    Except ContractError (State T × Response) :=
  match mapLoad s.tokens token_id with
  | none => Except.error ContractError.NotFound
  | some token =>
    match check_can_send s env info token with
    | Except.error e => Except.error e
    | Except.ok _ =>
      Except.ok (decrement_tokens { s with tokens := mapRemove s.tokens token_id },
        { attributes :=
            [(("action"), ("burn")),
             (("sender"), info.sender),
             (("token_id"), token_id)],
          messages := [] })

/-- The execute request (`ExecuteMsg<T, E>` as dispatched by `execute.rs`'s
`execute`); the custom `Extension` payload is kept opaque. -/
inductive ExecuteMsg (T : Type) where
  | Mint : MintMsg T → ExecuteMsg T
  | Approve : String → String → Option Expiration → ExecuteMsg T
  | Revoke : String → String → ExecuteMsg T
  | ApproveAll : String → Option Expiration → ExecuteMsg T
  | RevokeAll : String → ExecuteMsg T
  | TransferNft : String → String → ExecuteMsg T
  | SendNft : String → String → String → ExecuteMsg T
  | Burn : String → ExecuteMsg T
  | Extension : ExecuteMsg T
deriving DecidableEq

/-- The dispatcher (`execute.rs`, `execute`): routes each request to its
handler; the custom `Extension` arm returns the default response and
leaves the state untouched. -/
def execute {T : Type} (fmt : TokenInfo T → String) (s : State T) (env : Env)
    (info : MessageInfo) (msg : ExecuteMsg T) :
    Except ContractError (State T × Response) :=
  match msg with
  | ExecuteMsg.Mint m => mint fmt s info m
  | ExecuteMsg.Approve spender token_id expires => approve s env info spender token_id expires
  | ExecuteMsg.Revoke spender token_id => revoke s env info spender token_id
  | ExecuteMsg.ApproveAll operator expires => approve_all s env info operator expires
  | ExecuteMsg.RevokeAll operator => revoke_all s info operator
  | ExecuteMsg.TransferNft recipient token_id => transfer_nft s env info recipient token_id
  | ExecuteMsg.SendNft contract token_id m => send_nft s env info contract token_id m
  | ExecuteMsg.Burn token_id => burn s env info token_id
  | ExecuteMsg.Extension => Except.ok (s, Response.empty)

/-- The state produced by `instantiate` (`execute.rs`, `instantiate`):
the validated minter is stored, the counter item is unset (reads as `0`),
and both maps are empty. -/
def initState (T : Type) (minter : Addr) : State T :=
  { minter := minter, token_count := 0, operators := [], tokens := [] }

/-- States reachable from an instantiated contract by successful
executions (a failed execution aborts and leaves the state unchanged). -/
inductive Reachable {T : Type} (fmt : TokenInfo T → String) : State T → Prop where
  | init : ∀ minter : Addr, Reachable fmt (initState T minter)
  | step : ∀ (s s' : State T) (env : Env) (info : MessageInfo) (msg : ExecuteMsg T)
      (r : Response), Reachable fmt s → execute fmt s env info msg = Except.ok (s', r) →
      Reachable fmt s'

/-- Keys of an association list. -/
def mapKeys {K V : Type} (m : List (K × V)) : List K := m.map Prod.fst

/-- Spec-side transfer authorization, written from the spec's words
(`CanTransfer(actor, record, now)`): the actor is the owner, or the
record's approvals hold a non-expired entry for the actor, or a
non-expired operator grant for (owner, actor) exists. To be compared
with the code's `check_can_send`. -/
def CanTransferSpec {T : Type} (s : State T) (now : BlockInfo) (actor : Addr)
    (record : TokenInfo T) : Prop :=
  actor = record.owner ∨
  (∃ a ∈ record.approvals, a.spender = actor ∧ a.expires.is_expired now = false) ∨
  (∃ ex, mapLoad s.operators (record.owner, actor) = some ex ∧ ex.is_expired now = false)

/-- Spec-side approve authorization, written from the spec's words
(`CanApprove(actor, record, now)`): the actor is the owner, or a
non-expired operator grant for (owner, actor) exists. To be compared
with the code's `check_can_approve`. -/
def CanApproveSpec {T : Type} (s : State T) (now : BlockInfo) (actor : Addr)
    (record : TokenInfo T) : Prop :=
  actor = record.owner ∨
  (∃ ex, mapLoad s.operators (record.owner, actor) = some ex ∧ ex.is_expired now = false)

/-- At most one approval per spender in a record's approval list. -/
def ApprovalsUnique (approvals : List Approval) : Prop :=
  ∀ addr : Addr, approvals.countP (fun a => decide (a.spender = addr)) ≤ 1

/-- The supply invariant: the token map has no duplicate keys and the
counter equals the number of records reduced modulo `2 ^ 64`. -/
def SupplyInv {T : Type} (s : State T) : Prop :=
  (mapKeys s.tokens).Nodup ∧ s.token_count = s.tokens.length % u64Mod

/-- The per-spender approval invariant over a token map. -/
def ApprovalInvMap {T : Type} (m : List (String × TokenInfo T)) : Prop :=
  ∀ (k : String) (tok : TokenInfo T), mapLoad m k = some tok →
    ApprovalsUnique tok.approvals

/-- The per-spender approval invariant over the whole store. -/
def ApprovalInv {T : Type} (s : State T) : Prop :=
  ApprovalInvMap s.tokens

theorem mapLoad_eq_none_iff {K V : Type} [DecidableEq K] (m : List (K × V)) (k : K) :
    mapLoad m k = none ↔ ∀ p ∈ m, p.1 ≠ k := by
  simp [mapLoad, List.find?_eq_none]

theorem filter_eq_self_of_load_none {K V : Type} [DecidableEq K]
    (m : List (K × V)) (k : K) (h : mapLoad m k = none) :
    m.filter (fun p => decide (p.1 ≠ k)) = m := by
  rw [List.filter_eq_self]
  intro p hp
  simpa using (mapLoad_eq_none_iff m k).mp h p hp

theorem map_fst_filter_key {K V : Type} [DecidableEq K] (m : List (K × V)) (k : K) :
    (m.filter (fun p => decide (p.1 ≠ k))).map Prod.fst =
      (m.map Prod.fst).filter (fun x => decide (x ≠ k)) := by
  induction m with
  | nil => rfl
  | cons p rest ih =>
    rw [List.map_cons, List.filter_cons, List.filter_cons]
    by_cases hp : p.1 = k
    · rw [if_neg (by simp [hp]), if_neg (by simp [hp]), ih]
    · rw [if_pos (by simp [hp]), if_pos (by simp [hp]), List.map_cons, ih]

theorem mapKeys_mapSave_nodup {K V : Type} [DecidableEq K]
    (m : List (K × V)) (k : K) (v : V) (h : (mapKeys m).Nodup) :
    (mapKeys (mapSave m k v)).Nodup := by
  unfold mapKeys mapSave
  rw [List.map_cons, map_fst_filter_key]
  refine List.Nodup.cons ?_ (List.Nodup.filter _ h)
  intro hk
  rcases List.mem_filter.mp hk with ⟨_, hdec⟩
  simp at hdec

theorem length_mapSave_of_load_none {K V : Type} [DecidableEq K]
    (m : List (K × V)) (k : K) (v : V) (h : mapLoad m k = none) :
    (mapSave m k v).length = m.length + 1 := by
  unfold mapSave
  rw [filter_eq_self_of_load_none m k h, List.length_cons]

theorem length_mapRemove_of_load_some {K V : Type} [DecidableEq K]
    (m : List (K × V)) (k : K) (v : V) (hnd : (mapKeys m).Nodup)
    (h : mapLoad m k = some v) :
    (mapRemove m k).length + 1 = m.length := by
  induction m with
  | nil => simp [mapLoad] at h
  | cons p rest ih =>
    rw [mapKeys, List.map_cons, List.nodup_cons] at hnd
    by_cases hp : p.1 = k
    · have hrest : mapLoad rest k = none := by
        rw [mapLoad_eq_none_iff]
        intro q hq hq1
        have hmem : q.1 ∈ List.map Prod.fst rest := List.mem_map_of_mem Prod.fst hq
        rw [hq1, ← hp] at hmem
        exact hnd.1 hmem
      unfold mapRemove
      rw [List.filter_cons]
      have hfr : rest.filter (fun p => decide (p.1 ≠ k)) = rest :=
        filter_eq_self_of_load_none rest k hrest
      rw [if_neg (by simp [hp]), hfr, List.length_cons]
    · have hload : mapLoad rest k = some v := by
        unfold mapLoad at h ⊢
        rw [List.find?_cons_of_neg _ (by simp [hp])] at h
        exact h
      unfold mapRemove at ih ⊢
      rw [List.filter_cons, if_pos (by simp [hp]), List.length_cons, List.length_cons]
      have hlen := ih hnd.2 hload
      omega

theorem mapLoad_filter_ne {K V : Type} [DecidableEq K]
    (m : List (K × V)) (k k' : K) (h : k' ≠ k) :
    mapLoad (m.filter (fun p => decide (p.1 ≠ k))) k' = mapLoad m k' := by
  induction m with
  | nil => rfl
  | cons p rest ih =>
    rw [List.filter_cons]
    by_cases hp : p.1 = k
    · have hp' : ¬(p.1 = k') := fun hh => h (by rw [← hh, hp])
      have hstep : mapLoad (p :: rest) k' = mapLoad rest k' := by
        unfold mapLoad
        rw [List.find?_cons_of_neg _ (by simp [hp'])]
      rw [if_neg (by simp [hp]), hstep, ih]
    · rw [if_pos (by simp [hp])]
      by_cases hk' : p.1 = k'
      · unfold mapLoad
        rw [List.find?_cons_of_pos _ (by simp [hk']),
          List.find?_cons_of_pos _ (by simp [hk'])]
      · have hstep : mapLoad (p :: rest) k' = mapLoad rest k' := by
          unfold mapLoad
          rw [List.find?_cons_of_neg _ (by simp [hk'])]
        have hstep2 : mapLoad (p :: rest.filter (fun q => decide (q.1 ≠ k))) k' =
            mapLoad (rest.filter (fun q => decide (q.1 ≠ k))) k' := by
          unfold mapLoad
          rw [List.find?_cons_of_neg _ (by simp [hk'])]
        rw [hstep, hstep2, ih]

theorem mapLoad_mapSave_self {K V : Type} [DecidableEq K]
    (m : List (K × V)) (k : K) (v : V) :
    mapLoad (mapSave m k v) k = some v := by
  unfold mapSave mapLoad
  rw [List.find?_cons_of_pos _ (by simp)]
  rfl

theorem mapLoad_mapSave_ne {K V : Type} [DecidableEq K]
    (m : List (K × V)) (k k' : K) (v : V) (h : k' ≠ k) :
    mapLoad (mapSave m k v) k' = mapLoad m k' := by
  unfold mapSave
  have hstep : mapLoad ((k, v) :: m.filter (fun q => decide (q.1 ≠ k))) k' =
      mapLoad (m.filter (fun q => decide (q.1 ≠ k))) k' := by
    unfold mapLoad
    rw [List.find?_cons_of_neg _ (by simp; exact fun hh => h hh.symm)]
  rw [hstep]
  exact mapLoad_filter_ne m k k' h

theorem mapLoad_mapRemove_self {K V : Type} [DecidableEq K]
    (m : List (K × V)) (k : K) :
    mapLoad (mapRemove m k) k = none := by
  rw [mapLoad_eq_none_iff]
  intro p hp
  rcases List.mem_filter.mp hp with ⟨_, hdec⟩
  simpa using hdec

theorem mapLoad_mapRemove_ne {K V : Type} [DecidableEq K]
    (m : List (K × V)) (k k' : K) (h : k' ≠ k) :
    mapLoad (mapRemove m k) k' = mapLoad m k' := by
  exact mapLoad_filter_ne m k k' h

theorem mapKeys_mapRemove_nodup {K V : Type} [DecidableEq K]
    (m : List (K × V)) (k : K) (h : (mapKeys m).Nodup) :
    (mapKeys (mapRemove m k)).Nodup := by
  unfold mapKeys mapRemove
  rw [map_fst_filter_key]
  exact List.Nodup.filter _ h

theorem length_mapSave_of_load_some {K V : Type} [DecidableEq K]
    (m : List (K × V)) (k : K) (v v' : V) (hnd : (mapKeys m).Nodup)
    (h : mapLoad m k = some v') :
    (mapSave m k v).length = m.length := by
  unfold mapSave
  rw [List.length_cons]
  exact length_mapRemove_of_load_some m k v' hnd h

theorem bool_eq_false_of_not_true {b : Bool} (h : ¬(b = true)) : b = false := by
  cases b
  · rfl
  · exact absurd rfl h

theorem mint_ok_shape {T : Type} (fmt : TokenInfo T → String) (s : State T)
    (info : MessageInfo) (m : MintMsg T) (s' : State T) (r : Response)
    (h : mint fmt s info m = Except.ok (s', r)) :
    info.sender = s.minter ∧
    ∃ oa, addr_validate m.owner = Except.ok oa ∧
      mapLoad s.tokens m.token_id = none ∧
      s' = increment_tokens
        { s with tokens :=
            mapSave s.tokens m.token_id (TokenInfo.mk oa [] m.token_uri m.extension) } ∧
      r = Response.mk
        [(("token_info"), fmt (TokenInfo.mk oa [] m.token_uri m.extension)),
         (("action"), ("mint")), (("minter"), info.sender), (("owner"), m.owner),
         (("token_id"), m.token_id)] [] := by
  unfold mint at h
  split at h
  · cases h
  next hsender =>
    split at h
    · cases h
    next oa hval =>
      split at h
      · cases h
      next hload =>
        injection h with hpair
        injection hpair with hs hr
        exact ⟨not_not.mp hsender, oa, hval, hload, hs.symm, hr.symm⟩

theorem transfer_nft_core_ok_shape {T : Type} (s : State T) (env : Env)
    (info : MessageInfo) (recipient token_id : String) (s' : State T)
    (tok' : TokenInfo T)
    (h : transfer_nft_core s env info recipient token_id = Except.ok (s', tok')) :
    ∃ tok, mapLoad s.tokens token_id = some tok ∧
      check_can_send s env info tok = Except.ok () ∧
      ∃ raddr, addr_validate recipient = Except.ok raddr ∧
        tok' = { tok with owner := raddr, approvals := [] } ∧
        s' = { s with tokens := mapSave s.tokens token_id tok' } := by
  unfold transfer_nft_core at h
  split at h
  · cases h
  next tok hload =>
    split at h
    · cases h
    next u hcheck =>
      split at h
      · cases h
      next raddr hval =>
        injection h with hpair
        injection hpair with hs ht
        subst ht
        cases u
        exact ⟨tok, hload, hcheck, raddr, hval, rfl, hs.symm⟩

theorem update_approvals_core_ok_shape {T : Type} (s : State T) (env : Env)
    (info : MessageInfo) (spender token_id : String) (add : Bool)
    (expires : Option Expiration) (s' : State T) (tok' : TokenInfo T)
    (h : update_approvals_core s env info spender token_id add expires =
      Except.ok (s', tok')) :
    ∃ tok, mapLoad s.tokens token_id = some tok ∧
      check_can_approve s env info tok = Except.ok () ∧
      ∃ saddr, addr_validate spender = Except.ok saddr ∧
        s' = { s with tokens := mapSave s.tokens token_id tok' } ∧
        tok'.owner = tok.owner ∧ tok'.token_uri = tok.token_uri ∧
        tok'.extension = tok.extension ∧
        ((add = true ∧
            (expires.getD Expiration.default_value).is_expired env.block = false ∧
            tok'.approvals =
              tok.approvals.filter (fun apr => decide (apr.spender ≠ saddr)) ++
                [Approval.mk saddr (expires.getD Expiration.default_value)]) ∨
         (add = false ∧
            tok'.approvals =
              tok.approvals.filter (fun apr => decide (apr.spender ≠ saddr)))) := by
  unfold update_approvals_core at h
  split at h
  · cases h
  next tok hload =>
    split at h
    · cases h
    next u hcheck =>
      split at h
      · cases h
      next saddr hval =>
        cases u
        split at h
        next hadd =>
          split at h
          · cases h
          next hexp =>
            injection h with hpair
            injection hpair with hs ht
            subst ht
            exact ⟨tok, hload, hcheck, saddr, hval, hs.symm, rfl, rfl, rfl,
              Or.inl ⟨hadd, bool_eq_false_of_not_true hexp, rfl⟩⟩
        next hadd =>
          injection h with hpair
          injection hpair with hs ht
          subst ht
          exact ⟨tok, hload, hcheck, saddr, hval, hs.symm, rfl, rfl, rfl,
            Or.inr ⟨bool_eq_false_of_not_true hadd, rfl⟩⟩

theorem transfer_nft_ok_state {T : Type} (s : State T) (env : Env)
    (info : MessageInfo) (recipient token_id : String) (s' : State T) (r : Response)
    (h : transfer_nft s env info recipient token_id = Except.ok (s', r)) :
    ∃ tok', transfer_nft_core s env info recipient token_id = Except.ok (s', tok') := by
  unfold transfer_nft at h
  split at h
  · cases h
  next a b hcore =>
    injection h with hpair
    injection hpair with hs hr
    exact ⟨b, hs ▸ hcore⟩

theorem send_nft_ok_state {T : Type} (s : State T) (env : Env)
    (info : MessageInfo) (contract token_id msg : String) (s' : State T) (r : Response)
    (h : send_nft s env info contract token_id msg = Except.ok (s', r)) :
    ∃ tok', transfer_nft_core s env info contract token_id = Except.ok (s', tok') := by
  unfold send_nft at h
  split at h
  · cases h
  next a b hcore =>
    injection h with hpair
    injection hpair with hs hr
    exact ⟨b, hs ▸ hcore⟩

theorem approve_ok_state {T : Type} (s : State T) (env : Env)
    (info : MessageInfo) (spender token_id : String) (expires : Option Expiration)
    (s' : State T) (r : Response)
    (h : approve s env info spender token_id expires = Except.ok (s', r)) :
    ∃ tok', update_approvals_core s env info spender token_id true expires =
      Except.ok (s', tok') := by
  unfold approve at h
  split at h
  · cases h
  next a b hcore =>
    injection h with hpair
    injection hpair with hs hr
    exact ⟨b, hs ▸ hcore⟩

theorem revoke_ok_state {T : Type} (s : State T) (env : Env)
    (info : MessageInfo) (spender token_id : String) (s' : State T) (r : Response)
    (h : revoke s env info spender token_id = Except.ok (s', r)) :
    ∃ tok', update_approvals_core s env info spender token_id false none =
      Except.ok (s', tok') := by
  unfold revoke at h
  split at h
  · cases h
  next a b hcore =>
    injection h with hpair
    injection hpair with hs hr
    exact ⟨b, hs ▸ hcore⟩

theorem approve_all_ok_shape {T : Type} (s : State T) (env : Env)
    (info : MessageInfo) (operator : String) (expires : Option Expiration)
    (s' : State T) (r : Response)
    (h : approve_all s env info operator expires = Except.ok (s', r)) :
    (expires.getD Expiration.default_value).is_expired env.block = false ∧
    ∃ oa, addr_validate operator = Except.ok oa ∧
      s' = { s with operators := (mapSave s.operators (info.sender, oa)
        (expires.getD Expiration.default_value)) } := by
  unfold approve_all at h
  split at h
  · cases h
  next hexp =>
    split at h
    · cases h
    next oa hval =>
      injection h with hpair
      injection hpair with hs hr
      exact ⟨bool_eq_false_of_not_true hexp, oa, hval, hs.symm⟩

theorem revoke_all_ok_shape {T : Type} (s : State T) (info : MessageInfo)
    (operator : String) (s' : State T) (r : Response)
    (h : revoke_all s info operator = Except.ok (s', r)) :
    ∃ oa, addr_validate operator = Except.ok oa ∧
      s' = { s with operators := mapRemove s.operators (info.sender, oa) } := by
  unfold revoke_all at h
  split at h
  · cases h
  next oa hval =>
    injection h with hpair
    injection hpair with hs hr
    exact ⟨oa, hval, hs.symm⟩

theorem burn_ok_shape {T : Type} (s : State T) (env : Env) (info : MessageInfo)
    (token_id : String) (s' : State T) (r : Response)
    (h : burn s env info token_id = Except.ok (s', r)) :
    ∃ tok, mapLoad s.tokens token_id = some tok ∧
      check_can_send s env info tok = Except.ok () ∧
      s' = decrement_tokens { s with tokens := mapRemove s.tokens token_id } := by
  unfold burn at h
  split at h
  · cases h
  next tok hload =>
    split at h
    · cases h
    next u hcheck =>
      cases u
      injection h with hpair
      injection hpair with hs hr
      exact ⟨tok, hload, hcheck, hs.symm⟩

theorem check_can_send_ok_or_unauthorized {T : Type} (s : State T) (env : Env)
    (info : MessageInfo) (token : TokenInfo T) :
    check_can_send s env info token = Except.ok () ∨
    check_can_send s env info token = Except.error ContractError.Unauthorized := by
  unfold check_can_send
  split
  · exact Or.inl rfl
  · split
    · exact Or.inl rfl
    · split
      · split
        · exact Or.inr rfl
        · exact Or.inl rfl
      · exact Or.inr rfl

theorem check_can_send_ok_iff {T : Type} (s : State T) (env : Env)
    (info : MessageInfo) (token : TokenInfo T) :
    check_can_send s env info token = Except.ok () ↔
      CanTransferSpec s env.block info.sender token := by
  unfold check_can_send CanTransferSpec
  split
  next h1 =>
    simp [h1]
  next h1 =>
    split
    next hany =>
      constructor
      · intro _
        refine Or.inr (Or.inl ?_)
        rcases List.any_eq_true.mp hany with ⟨a, ha, hpa⟩
        rw [Bool.and_eq_true] at hpa
        obtain ⟨hx, hy⟩ := hpa
        refine ⟨a, ha, of_decide_eq_true hx, ?_⟩
        revert hy
        unfold Approval.is_expired
        cases a.expires.is_expired env.block <;> simp
      · intro _
        rfl
    next hany =>
      have hanyf : token.approvals.any
          (fun apr => decide (apr.spender = info.sender) && !(apr.is_expired env.block)) =
          false := by
        revert hany
        cases token.approvals.any
            (fun apr => decide (apr.spender = info.sender) && !(apr.is_expired env.block)) <;>
          simp
      have hnoap : ∀ a ∈ token.approvals,
          ¬(a.spender = info.sender ∧ a.expires.is_expired env.block = false) := by
        intro a ha hcon
        have hfa := List.any_eq_false.mp hanyf a ha
        apply hfa
        rw [Bool.and_eq_true]
        refine ⟨decide_eq_true hcon.1, ?_⟩
        unfold Approval.is_expired
        rw [hcon.2]
        rfl
      split
      next ex hop =>
        split
        next hexp =>
          constructor
          · intro hcon
            cases hcon
          · intro hspec
            rcases hspec with h | ⟨a, ha, has, hae⟩ | ⟨ex', hex, hexe⟩
            · exact absurd h.symm h1
            · exact absurd ⟨has, hae⟩ (hnoap a ha)
            · rw [hop] at hex
              cases hex
              rw [hexp] at hexe
              cases hexe
        next hexp =>
          constructor
          · intro _
            refine Or.inr (Or.inr ⟨ex, hop, ?_⟩)
            revert hexp
            cases ex.is_expired env.block <;> simp
          · intro _
            rfl
      next hop =>
        constructor
        · intro hcon
          cases hcon
        · intro hspec
          rcases hspec with h | ⟨a, ha, has, hae⟩ | ⟨ex', hex, hexe⟩
          · exact absurd h.symm h1
          · exact absurd ⟨has, hae⟩ (hnoap a ha)
          · rw [hop] at hex
            cases hex

theorem check_can_approve_ok_or_unauthorized {T : Type} (s : State T) (env : Env)
    (info : MessageInfo) (token : TokenInfo T) :
    check_can_approve s env info token = Except.ok () ∨
    check_can_approve s env info token = Except.error ContractError.Unauthorized := by
  unfold check_can_approve
  split
  · exact Or.inl rfl
  · split
    · split
      · exact Or.inr rfl
      · exact Or.inl rfl
    · exact Or.inr rfl

theorem check_can_approve_ok_iff {T : Type} (s : State T) (env : Env)
    (info : MessageInfo) (token : TokenInfo T) :
    check_can_approve s env info token = Except.ok () ↔
      CanApproveSpec s env.block info.sender token := by
  unfold check_can_approve CanApproveSpec
  split
  next h1 =>
    simp [h1]
  next h1 =>
    split
    next ex hop =>
      split
      next hexp =>
        constructor
        · intro hcon
          cases hcon
        · intro hspec
          rcases hspec with h | ⟨ex', hex, hexe⟩
          · exact absurd h.symm h1
          · rw [hop] at hex
            cases hex
            rw [hexp] at hexe
            cases hexe
      next hexp =>
        constructor
        · intro _
          refine Or.inr ⟨ex, hop, ?_⟩
          revert hexp
          cases ex.is_expired env.block <;> simp
        · intro _
          rfl
    next hop =>
      constructor
      · intro hcon
        cases hcon
      · intro hspec
        rcases hspec with h | ⟨ex', hex, hexe⟩
        · exact absurd h.symm h1
        · rw [hop] at hex
          cases hex

/-- C1: `check_can_send` (used by Transfer, Send, Burn) succeeds exactly
when the actor is the record's owner, or holds a non-expired per-token
approval, or a non-expired operator grant keyed by (owner, actor) exists;
in every other case it fails with `Unauthorized`; and it always succeeds
for the owner, independent of approvals and grants. -/
theorem transfer_authorization_correct (T : Type) (s : State T) (env : Env)
    (info : MessageInfo) (token : TokenInfo T) :
    (check_can_send s env info token = Except.ok () ↔
      CanTransferSpec s env.block info.sender token) ∧
    (¬ CanTransferSpec s env.block info.sender token →
      check_can_send s env info token = Except.error ContractError.Unauthorized) ∧
    (info.sender = token.owner → check_can_send s env info token = Except.ok ()) := by
  refine ⟨check_can_send_ok_iff s env info token, ?_, ?_⟩
  · intro hns
    rcases check_can_send_ok_or_unauthorized s env info token with hok | herr
    · exact absurd ((check_can_send_ok_iff s env info token).mp hok) hns
    · exact herr
  · intro hown
    exact (check_can_send_ok_iff s env info token).mpr (Or.inl hown)

/-- C1 witness: at a concrete state, a stranger is rejected as
`Unauthorized` and the owner always passes. -/
theorem transfer_authorization_correct_witness :
    check_can_send (State.mk ("m") 0 [] []) (Env.mk (BlockInfo.mk 5 5))
      (MessageInfo.mk ("carol")) (TokenInfo.mk ("alice") [] none ()) =
      Except.error ContractError.Unauthorized ∧
    check_can_send (State.mk ("m") 0 [] []) (Env.mk (BlockInfo.mk 5 5))
      (MessageInfo.mk ("alice")) (TokenInfo.mk ("alice") [] none ()) =
      Except.ok () := by
  constructor
  · refine (transfer_authorization_correct Unit (State.mk ("m") 0 [] [])
      (Env.mk (BlockInfo.mk 5 5)) (MessageInfo.mk ("carol"))
      (TokenInfo.mk ("alice") [] none ())).2.1 ?_
    rintro (h | ⟨a, ha, _, _⟩ | ⟨ex, hex, _⟩)
    · exact absurd h (by decide)
    · cases ha
    · cases hex
  · exact (transfer_authorization_correct Unit (State.mk ("m") 0 [] [])
      (Env.mk (BlockInfo.mk 5 5)) (MessageInfo.mk ("alice"))
      (TokenInfo.mk ("alice") [] none ())).2.2 rfl

/-- C2: `check_can_approve` (used by Approve and Revoke) succeeds exactly
when the actor is the record's owner or a non-expired operator grant keyed
by (owner, actor) exists; in every other case it fails with
`Unauthorized`; in particular a per-token approval held by the actor never
grants approve/revoke rights. -/
theorem approve_authorization_correct (T : Type) (s : State T) (env : Env)
    (info : MessageInfo) (token : TokenInfo T) :
    (check_can_approve s env info token = Except.ok () ↔
      CanApproveSpec s env.block info.sender token) ∧
    (¬ CanApproveSpec s env.block info.sender token →
      check_can_approve s env info token = Except.error ContractError.Unauthorized) ∧
    (info.sender = token.owner → check_can_approve s env info token = Except.ok ()) := by
  refine ⟨check_can_approve_ok_iff s env info token, ?_, ?_⟩
  · intro hns
    rcases check_can_approve_ok_or_unauthorized s env info token with hok | herr
    · exact absurd ((check_can_approve_ok_iff s env info token).mp hok) hns
    · exact herr
  · intro hown
    exact (check_can_approve_ok_iff s env info token).mpr (Or.inl hown)

/-- C2 witness: at a concrete state, a spender holding a live per-token
approval is still rejected for approve/revoke, and the owner passes. -/
theorem approve_authorization_correct_witness :
    check_can_approve (State.mk ("m") 1 [] []) (Env.mk (BlockInfo.mk 5 5))
      (MessageInfo.mk ("bob"))
      (TokenInfo.mk ("alice") [Approval.mk ("bob") Expiration.never] none ()) =
      Except.error ContractError.Unauthorized ∧
    check_can_approve (State.mk ("m") 1 [] []) (Env.mk (BlockInfo.mk 5 5))
      (MessageInfo.mk ("alice"))
      (TokenInfo.mk ("alice") [Approval.mk ("bob") Expiration.never] none ()) =
      Except.ok () := by
  constructor
  · refine (approve_authorization_correct Unit (State.mk ("m") 1 [] [])
      (Env.mk (BlockInfo.mk 5 5)) (MessageInfo.mk ("bob"))
      (TokenInfo.mk ("alice") [Approval.mk ("bob") Expiration.never] none ())).2.1 ?_
    rintro (h | ⟨ex, hex, _⟩)
    · exact absurd h (by decide)
    · cases hex
  · exact (approve_authorization_correct Unit (State.mk ("m") 1 [] [])
      (Env.mk (BlockInfo.mk 5 5)) (MessageInfo.mk ("alice"))
      (TokenInfo.mk ("alice") [Approval.mk ("bob") Expiration.never] none ())).2.2 rfl

theorem core_result_record {T : Type} (s : State T) (env : Env) (info : MessageInfo)
    (recipient token_id : String) (tok : TokenInfo T) (s' : State T)
    (tok' : TokenInfo T) (hload : mapLoad s.tokens token_id = some tok)
    (h : transfer_nft_core s env info recipient token_id = Except.ok (s', tok')) :
    ∃ raddr, addr_validate recipient = Except.ok raddr ∧
      mapLoad s'.tokens token_id =
        some (TokenInfo.mk raddr [] tok.token_uri tok.extension) := by
  obtain ⟨tok0, hl0, _, raddr, hval, ht, hs⟩ :=
    transfer_nft_core_ok_shape s env info recipient token_id s' tok' h
  rw [hload] at hl0
  injection hl0 with htok
  subst htok
  refine ⟨raddr, hval, ?_⟩
  rw [hs]
  show mapLoad (mapSave s.tokens token_id tok') token_id = _
  rw [mapLoad_mapSave_self, ht]

/-- C3: a successful Transfer or Send leaves the affected record with the
validated recipient as owner, an empty approvals list, and unchanged
token_uri and extension, however authorization was obtained. -/
theorem transfer_and_send_update_record (T : Type) (s : State T) (env : Env)
    (info : MessageInfo) (recipient token_id m : String) (tok : TokenInfo T)
    (st sn : State T) (rt rn : Response) :
    (mapLoad s.tokens token_id = some tok →
      transfer_nft s env info recipient token_id = Except.ok (st, rt) →
      ∃ raddr, addr_validate recipient = Except.ok raddr ∧
        mapLoad st.tokens token_id =
          some (TokenInfo.mk raddr [] tok.token_uri tok.extension)) ∧
    (mapLoad s.tokens token_id = some tok →
      send_nft s env info recipient token_id m = Except.ok (sn, rn) →
      ∃ raddr, addr_validate recipient = Except.ok raddr ∧
        mapLoad sn.tokens token_id =
          some (TokenInfo.mk raddr [] tok.token_uri tok.extension)) := by
  constructor
  · intro hload h
    obtain ⟨tok', hcore⟩ := transfer_nft_ok_state s env info recipient token_id st rt h
    exact core_result_record s env info recipient token_id tok st tok' hload hcore
  · intro hload h
    obtain ⟨tok', hcore⟩ := send_nft_ok_state s env info recipient token_id m sn rn h
    exact core_result_record s env info recipient token_id tok sn tok' hload hcore

/-- C3 witness: a concrete owner-authorized Transfer and Send both leave
the record owned by the recipient with no approvals. -/
theorem transfer_and_send_update_record_witness :
    mapLoad [(("1"), TokenInfo.mk ("alice") [Approval.mk ("bob") Expiration.never] none ())]
        ("1") = some (TokenInfo.mk ("alice") [Approval.mk ("bob") Expiration.never] none ()) ∧
    transfer_nft
        (State.mk ("m") 1 []
          [(("1"), TokenInfo.mk ("alice") [Approval.mk ("bob") Expiration.never] none ())])
        (Env.mk (BlockInfo.mk 5 5)) (MessageInfo.mk ("alice")) ("carol") ("1") =
      Except.ok (State.mk ("m") 1 [] [(("1"), TokenInfo.mk ("carol") [] none ())],
        Response.mk [(("action"), ("transfer_nft")), (("sender"), ("alice")),
          (("recipient"), ("carol")), (("token_id"), ("1"))] []) ∧
    send_nft
        (State.mk ("m") 1 []
          [(("1"), TokenInfo.mk ("alice") [Approval.mk ("bob") Expiration.never] none ())])
        (Env.mk (BlockInfo.mk 5 5)) (MessageInfo.mk ("alice")) ("carol") ("1") ("x") =
      Except.ok (State.mk ("m") 1 [] [(("1"), TokenInfo.mk ("carol") [] none ())],
        Response.mk [(("action"), ("send_nft")), (("sender"), ("alice")),
          (("recipient"), ("carol")), (("token_id"), ("1"))]
          [CwMsg.mk ("carol") ("alice") ("1") ("x")]) ∧
    (∃ raddr, addr_validate ("carol") = Except.ok raddr ∧
      mapLoad (State.mk ("m") 1 [] [(("1"), TokenInfo.mk ("carol") [] none ())]).tokens
          ("1") = some (TokenInfo.mk raddr [] none ())) := by
  refine ⟨by decide, by decide, by decide, ?_⟩
  exact (transfer_and_send_update_record Unit
    (State.mk ("m") 1 []
      [(("1"), TokenInfo.mk ("alice") [Approval.mk ("bob") Expiration.never] none ())])
    (Env.mk (BlockInfo.mk 5 5)) (MessageInfo.mk ("alice")) ("carol") ("1") ("x")
    (TokenInfo.mk ("alice") [Approval.mk ("bob") Expiration.never] none ())
    (State.mk ("m") 1 [] [(("1"), TokenInfo.mk ("carol") [] none ())])
    (State.mk ("m") 1 [] [(("1"), TokenInfo.mk ("carol") [] none ())])
    (Response.mk [(("action"), ("transfer_nft")), (("sender"), ("alice")),
      (("recipient"), ("carol")), (("token_id"), ("1"))] [])
    (Response.mk [(("action"), ("send_nft")), (("sender"), ("alice")),
      (("recipient"), ("carol")), (("token_id"), ("1"))]
      [CwMsg.mk ("carol") ("alice") ("1") ("x")])).1 (by decide) (by decide)

theorem update_approvals_core_expired {T : Type} (s : State T) (env : Env)
    (info : MessageInfo) (spender token_id : String) (e : Expiration)
    (tok : TokenInfo T) (saddr : Addr) (hexp : e.is_expired env.block = true)
    (hload : mapLoad s.tokens token_id = some tok)
    (hcheck : check_can_approve s env info tok = Except.ok ())
    (hval : addr_validate spender = Except.ok saddr) :
    update_approvals_core s env info spender token_id true (some e) =
      Except.error ContractError.Expired := by
  unfold update_approvals_core
  rw [hload]
  simp [hcheck, hval, hexp, Expiration.default_value]

/-- C4: an Approve whose supplied expiration is already elapsed — with the
token present, the actor authorized and the spender valid — and an
ApproveAll with an elapsed expiration both fail with `Expired`; the error
return means no store write (in particular Approve's in-memory removal of
the spender's prior approval is never saved). -/
theorem expired_grants_rejected (T : Type) (s : State T) (env : Env)
    (info : MessageInfo) (spender token_id operator : String) (e : Expiration)
    (tok : TokenInfo T) (saddr : Addr) :
    (e.is_expired env.block = true →
      mapLoad s.tokens token_id = some tok →
      check_can_approve s env info tok = Except.ok () →
      addr_validate spender = Except.ok saddr →
      approve s env info spender token_id (some e) =
        Except.error ContractError.Expired) ∧
    (e.is_expired env.block = true →
      approve_all s env info operator (some e) =
        Except.error ContractError.Expired) := by
  constructor
  · intro hexp hload hcheck hval
    unfold approve
    rw [update_approvals_core_expired s env info spender token_id e tok saddr
      hexp hload hcheck hval]
  · intro hexp
    unfold approve_all
    simp [Expiration.default_value, hexp]

/-- C4 witness: at height 5 an approval expiring at height 3 is rejected
with `Expired` by both Approve and ApproveAll at a concrete state. -/
theorem expired_grants_rejected_witness :
    (Expiration.at_height 3).is_expired (BlockInfo.mk 5 5) = true ∧
    approve (State.mk ("m") 1 [] [(("1"), TokenInfo.mk ("alice") [] none ())])
        (Env.mk (BlockInfo.mk 5 5)) (MessageInfo.mk ("alice")) ("bob") ("1")
        (some (Expiration.at_height 3)) = Except.error ContractError.Expired ∧
    approve_all (State.mk ("m") 1 [] [(("1"), TokenInfo.mk ("alice") [] none ())])
        (Env.mk (BlockInfo.mk 5 5)) (MessageInfo.mk ("alice")) ("dave")
        (some (Expiration.at_height 3)) = Except.error ContractError.Expired := by
  refine ⟨by decide, ?_, ?_⟩
  · exact (expired_grants_rejected Unit
      (State.mk ("m") 1 [] [(("1"), TokenInfo.mk ("alice") [] none ())])
      (Env.mk (BlockInfo.mk 5 5)) (MessageInfo.mk ("alice")) ("bob") ("1") ("dave")
      (Expiration.at_height 3) (TokenInfo.mk ("alice") [] none ()) ("bob")).1
      (by decide) (by decide) (by decide) (by decide)
  · exact (expired_grants_rejected Unit
      (State.mk ("m") 1 [] [(("1"), TokenInfo.mk ("alice") [] none ())])
      (Env.mk (BlockInfo.mk 5 5)) (MessageInfo.mk ("alice")) ("bob") ("1") ("dave")
      (Expiration.at_height 3) (TokenInfo.mk ("alice") [] none ()) ("bob")).2
      (by decide)

/-- C5: Mint by the configured minter fails with `Claimed`
(spec: `AlreadyExists`) exactly when the id has a live record and the
error return means no store write; on an id with no live record it
succeeds and creates the record with the given owner, no approvals, the
given uri and extension; and a Burn leaves its id with no live record, so
the freed id satisfies the fresh-mint precondition. -/
theorem mint_existence_guard (T : Type) (fmt : TokenInfo T → String) (s : State T)
    (info : MessageInfo) (m : MintMsg T) (oa : Addr) (tok : TokenInfo T) :
    (info.sender = s.minter → addr_validate m.owner = Except.ok oa →
      mapLoad s.tokens m.token_id = some tok →
      mint fmt s info m = Except.error ContractError.Claimed) ∧
    (info.sender = s.minter → addr_validate m.owner = Except.ok oa →
      mapLoad s.tokens m.token_id = none →
      ∃ (s' : State T) (r : Response), mint fmt s info m = Except.ok (s', r) ∧
        mapLoad s'.tokens m.token_id =
          some (TokenInfo.mk oa [] m.token_uri m.extension)) ∧
    (∀ (env : Env) (actor : MessageInfo) (token_id : String) (s' : State T)
        (r : Response),
      burn s env actor token_id = Except.ok (s', r) →
      mapLoad s'.tokens token_id = none) := by
  refine ⟨?_, ?_, ?_⟩
  · intro hsender hval hload
    unfold mint
    rw [if_neg (not_not_intro hsender), hval, hload]
  · intro hsender hval hload
    unfold mint
    rw [if_neg (not_not_intro hsender), hval, hload]
    refine ⟨_, _, rfl, ?_⟩
    show mapLoad (mapSave s.tokens m.token_id (TokenInfo.mk oa [] m.token_uri m.extension))
      m.token_id = _
    exact mapLoad_mapSave_self s.tokens m.token_id (TokenInfo.mk oa [] m.token_uri m.extension)
  · intro env actor token_id s' r h
    obtain ⟨tok0, hload0, hcheck0, hs⟩ := burn_ok_shape s env actor token_id s' r h
    rw [hs]
    show mapLoad (mapRemove s.tokens token_id) token_id = none
    exact mapLoad_mapRemove_self s.tokens token_id

/-- C5 witness: minting an existing id fails `Claimed`; after burning it,
minting the same id succeeds again at a concrete state. -/
theorem mint_existence_guard_witness :
    mint (fun _ => ("tok")) (State.mk ("m") 1 [] [(("1"), TokenInfo.mk ("alice") [] none ())])
        (MessageInfo.mk ("m")) (MintMsg.mk ("1") ("frank") none ()) =
      Except.error ContractError.Claimed ∧
    burn (State.mk ("m") 1 [] [(("1"), TokenInfo.mk ("alice") [] none ())])
        (Env.mk (BlockInfo.mk 5 5)) (MessageInfo.mk ("alice")) ("1") =
      Except.ok (State.mk ("m") 0 [] [],
        Response.mk [(("action"), ("burn")), (("sender"), ("alice")),
          (("token_id"), ("1"))] []) ∧
    mapLoad (State.mk ("m") 0 [] [] : State Unit).tokens ("1") = none ∧
    (∃ (s' : State Unit) (r : Response),
      mint (fun _ => ("tok")) (State.mk ("m") 0 [] []) (MessageInfo.mk ("m"))
          (MintMsg.mk ("1") ("frank") none ()) = Except.ok (s', r) ∧
        mapLoad s'.tokens ("1") = some (TokenInfo.mk ("frank") [] none ())) := by
  refine ⟨?_, by decide, ?_, ?_⟩
  · exact (mint_existence_guard Unit (fun _ => ("tok"))
      (State.mk ("m") 1 [] [(("1"), TokenInfo.mk ("alice") [] none ())])
      (MessageInfo.mk ("m")) (MintMsg.mk ("1") ("frank") none ()) ("frank")
      (TokenInfo.mk ("alice") [] none ())).1 rfl (by decide) (by decide)
  · exact (mint_existence_guard Unit (fun _ => ("tok"))
      (State.mk ("m") 1 [] [(("1"), TokenInfo.mk ("alice") [] none ())])
      (MessageInfo.mk ("m")) (MintMsg.mk ("1") ("frank") none ()) ("frank")
      (TokenInfo.mk ("alice") [] none ())).2.2 (Env.mk (BlockInfo.mk 5 5))
      (MessageInfo.mk ("alice")) ("1") (State.mk ("m") 0 [] [])
      (Response.mk [(("action"), ("burn")), (("sender"), ("alice")),
        (("token_id"), ("1"))] []) (by decide)
  · exact (mint_existence_guard Unit (fun _ => ("tok")) (State.mk ("m") 0 [] [])
      (MessageInfo.mk ("m")) (MintMsg.mk ("1") ("frank") none ()) ("frank")
      (TokenInfo.mk ("alice") [] none ())).2.1 rfl (by decide) (by decide)

/-- C8 counterexample: at a concrete mint, the emitted attributes are the
five-element list headed by a `token_info` attribute, not exactly the four
attributes {action, minter, owner, token_id} the claim states. -/
theorem mint_response_attributes_counterexample :
    mint (fun _ => ("tok")) (initState Unit ("m")) (MessageInfo.mk ("m"))
        (MintMsg.mk ("1") ("alice") none ()) =
      Except.ok (State.mk ("m") 1 [] [(("1"), TokenInfo.mk ("alice") [] none ())],
        Response.mk
          [(("token_info"), ("tok")), (("action"), ("mint")), (("minter"), ("m")),
           (("owner"), ("alice")), (("token_id"), ("1"))] []) ∧
    [(("token_info"), ("tok")), (("action"), ("mint")), (("minter"), ("m")),
     (("owner"), ("alice")), (("token_id"), ("1"))] ≠
      [(("action"), ("mint")), (("minter"), ("m")), (("owner"), ("alice")),
       (("token_id"), ("1"))] := by
  exact ⟨by decide, by decide⟩

/-- C8 amended: the attributes of a successful mint are exactly
{token_info: Debug rendering of the new record, action:"mint",
minter: the acting sender, owner: the supplied owner,
token_id: the supplied id}, in that order, with no other attributes. -/
theorem mint_response_attributes (T : Type) (fmt : TokenInfo T → String)
    (s : State T) (info : MessageInfo) (m : MintMsg T) (s' : State T)
    (r : Response) (h : mint fmt s info m = Except.ok (s', r)) :
    ∃ oa, addr_validate m.owner = Except.ok oa ∧
      r.attributes =
        [(("token_info"), fmt (TokenInfo.mk oa [] m.token_uri m.extension)),
         (("action"), ("mint")), (("minter"), info.sender), (("owner"), m.owner),
         (("token_id"), m.token_id)] := by
  obtain ⟨_, oa, hval, _, _, hr⟩ := mint_ok_shape fmt s info m s' r h
  exact ⟨oa, hval, by rw [hr]⟩

/-- C8 amended witness: the attribute list of a concrete successful
mint. -/
theorem mint_response_attributes_witness :
    mint (fun _ => ("tok")) (State.mk ("m") 0 [] []) (MessageInfo.mk ("m"))
        (MintMsg.mk ("2") ("bob") none ()) =
      Except.ok (State.mk ("m") 1 [] [(("2"), TokenInfo.mk ("bob") [] none ())],
        Response.mk
          [(("token_info"), ("tok")), (("action"), ("mint")), (("minter"), ("m")),
           (("owner"), ("bob")), (("token_id"), ("2"))] []) ∧
    (∃ oa, addr_validate ("bob") = Except.ok oa ∧
      (Response.mk
        [(("token_info"), ("tok")), (("action"), ("mint")), (("minter"), ("m")),
         (("owner"), ("bob")), (("token_id"), ("2"))] []).attributes =
        [(("token_info"), ("tok")), (("action"), ("mint")), (("minter"), ("m")),
         (("owner"), ("bob")), (("token_id"), ("2"))]) := by
  refine ⟨by decide, ?_⟩
  have h := mint_response_attributes Unit (fun _ => ("tok")) (State.mk ("m") 0 [] [])
    (MessageInfo.mk ("m")) (MintMsg.mk ("2") ("bob") none ())
    (State.mk ("m") 1 [] [(("2"), TokenInfo.mk ("bob") [] none ())])
    (Response.mk
      [(("token_info"), ("tok")), (("action"), ("mint")), (("minter"), ("m")),
       (("owner"), ("bob")), (("token_id"), ("2"))] []) (by decide)
  exact h

/-- C9: an omitted expiration defaults to `never`, which is expired at no
block, so the `Expired` precondition cannot fail: an Approve with no
expiration succeeds (under the other preconditions) and stores `never`,
and an ApproveAll with no expiration succeeds and stores `never`. -/
theorem omitted_expiration_never (T : Type) (s : State T) (env : Env)
    (info : MessageInfo) (spender token_id operator : String)
    (tok : TokenInfo T) (saddr oaddr : Addr) :
    ((none : Option Expiration).getD Expiration.default_value = Expiration.never) ∧
    (∀ b : BlockInfo, Expiration.never.is_expired b = false) ∧
    (mapLoad s.tokens token_id = some tok →
      check_can_approve s env info tok = Except.ok () →
      addr_validate spender = Except.ok saddr →
      approve s env info spender token_id none =
        Except.ok
          ({ s with tokens := (mapSave s.tokens token_id
              { tok with approvals :=
                  tok.approvals.filter (fun apr => decide (apr.spender ≠ saddr)) ++
                    [Approval.mk saddr Expiration.never] }) },
            Response.mk [(("action"), ("approve")), (("sender"), info.sender),
              (("spender"), spender), (("token_id"), token_id)] [])) ∧
    (addr_validate operator = Except.ok oaddr →
      approve_all s env info operator none =
        Except.ok
          ({ s with operators :=
              (mapSave s.operators (info.sender, oaddr) Expiration.never) },
            Response.mk [(("action"), ("approve_all")), (("sender"), info.sender),
              (("operator"), operator)] [])) := by
  refine ⟨rfl, fun b => rfl, ?_, ?_⟩
  · intro hload hcheck hval
    unfold approve update_approvals_core
    rw [hload]
    simp [hcheck, hval, Expiration.default_value, Expiration.is_expired]
  · intro hval
    unfold approve_all
    simp [hval, Expiration.default_value, Expiration.is_expired]

/-- C9 witness: at a concrete state, an Approve and an ApproveAll with no
expiration both succeed and store `never`. -/
theorem omitted_expiration_never_witness :
    approve (State.mk ("m") 1 [] [(("1"), TokenInfo.mk ("alice") [] none ())])
        (Env.mk (BlockInfo.mk 5 5)) (MessageInfo.mk ("alice")) ("bob") ("1") none =
      Except.ok
        (State.mk ("m") 1 []
          [(("1"), TokenInfo.mk ("alice") [Approval.mk ("bob") Expiration.never] none ())],
          Response.mk [(("action"), ("approve")), (("sender"), ("alice")),
            (("spender"), ("bob")), (("token_id"), ("1"))] []) ∧
    approve_all (State.mk ("m") 1 [] [(("1"), TokenInfo.mk ("alice") [] none ())])
        (Env.mk (BlockInfo.mk 5 5)) (MessageInfo.mk ("alice")) ("dave") none =
      Except.ok
        (State.mk ("m") 1 [((("alice"), ("dave")), Expiration.never)]
          [(("1"), TokenInfo.mk ("alice") [] none ())],
          Response.mk [(("action"), ("approve_all")), (("sender"), ("alice")),
            (("operator"), ("dave"))] []) := by
  constructor
  · have h := (omitted_expiration_never Unit
      (State.mk ("m") 1 [] [(("1"), TokenInfo.mk ("alice") [] none ())])
      (Env.mk (BlockInfo.mk 5 5)) (MessageInfo.mk ("alice")) ("bob") ("1") ("dave")
      (TokenInfo.mk ("alice") [] none ()) ("bob") ("dave")).2.2.1
      (by decide) (by decide) (by decide)
    exact h
  · have h := (omitted_expiration_never Unit
      (State.mk ("m") 1 [] [(("1"), TokenInfo.mk ("alice") [] none ())])
      (Env.mk (BlockInfo.mk 5 5)) (MessageInfo.mk ("alice")) ("bob") ("1") ("dave")
      (TokenInfo.mk ("alice") [] none ()) ("bob") ("dave")).2.2.2 (by decide)
    exact h

theorem one_le_length_of_load_some {K V : Type} [DecidableEq K]
    (m : List (K × V)) (k : K) (v : V) (h : mapLoad m k = some v) :
    1 ≤ m.length := by
  cases m with
  | nil => cases h
  | cons p rest => simp

/-- C10: `decrement_tokens` computes `val - 1` with wrap-around `u64`
semantics; in a state satisfying the supply invariant (counter equals the
number of live records, a `u64` quantity) where Burn's precondition holds
(the id has a live record), the counter is at least one and the
subtraction is exact — no underflow — so a successful Burn leaves the
counter at exactly one less. -/
theorem burn_counter_no_underflow (T : Type) (s : State T) (env : Env)
    (info : MessageInfo) (token_id : String) (tok : TokenInfo T)
    (hinv : s.token_count = s.tokens.length) (hrange : s.tokens.length < u64Mod)
    (hload : mapLoad s.tokens token_id = some tok) :
    1 ≤ s.token_count ∧
    (decrement_tokens { s with tokens := mapRemove s.tokens token_id }).token_count =
      s.token_count - 1 ∧
    (∀ (s' : State T) (r : Response), burn s env info token_id = Except.ok (s', r) →
      s'.token_count = s.token_count - 1) := by
  have hlen : 1 ≤ s.tokens.length := one_le_length_of_load_some s.tokens token_id tok hload
  have hone : 1 ≤ s.token_count := by rw [hinv]; exact hlen
  have hdec : (decrement_tokens
      { s with tokens := mapRemove s.tokens token_id }).token_count =
      s.token_count - 1 := by
    show (s.token_count + (u64Mod - 1)) % u64Mod = s.token_count - 1
    rw [hinv] at hone ⊢
    unfold u64Mod
    unfold u64Mod at hrange
    omega
  refine ⟨hone, hdec, ?_⟩
  intro s' r h
  obtain ⟨tok0, hload0, hcheck0, hs⟩ := burn_ok_shape s env info token_id s' r h
  rw [hs]
  exact hdec

/-- C10 witness: at a concrete one-token state satisfying the invariant,
Burn's subtraction yields exactly zero. -/
theorem burn_counter_no_underflow_witness :
    (State.mk ("m") 1 [] [(("1"), TokenInfo.mk ("alice") [] none ())] :
      State Unit).token_count =
      (State.mk ("m") 1 [] [(("1"), TokenInfo.mk ("alice") [] none ())] :
        State Unit).tokens.length ∧
    mapLoad [(("1"), TokenInfo.mk ("alice") [] none ())] ("1") =
      some (TokenInfo.mk ("alice") [] none ()) ∧
    1 ≤ (1 : Nat) ∧
    (decrement_tokens
      { (State.mk ("m") 1 [] [(("1"), TokenInfo.mk ("alice") [] none ())] :
          State Unit) with
        tokens := mapRemove [(("1"), TokenInfo.mk ("alice") [] none ())] ("1") }).token_count =
      0 := by
  have h := burn_counter_no_underflow Unit
    (State.mk ("m") 1 [] [(("1"), TokenInfo.mk ("alice") [] none ())])
    (Env.mk (BlockInfo.mk 5 5)) (MessageInfo.mk ("alice")) ("1")
    (TokenInfo.mk ("alice") [] none ()) rfl (by decide) (by decide)
  exact ⟨rfl, by decide, h.1, h.2.1⟩

theorem countP_filter_le {α : Type} (l : List α) (p q : α → Bool) :
    (l.filter q).countP p ≤ l.countP p := by
  induction l with
  | nil => simp
  | cons a rest ih =>
    rw [List.filter_cons]
    by_cases hq : q a
    · rw [if_pos (by simp [hq]), List.countP_cons, List.countP_cons]
      exact Nat.add_le_add_right ih _
    · rw [if_neg (by simp [hq]), List.countP_cons]
      exact le_trans ih (Nat.le_add_right _ _)

theorem countP_spender_filter_ne (x : Addr) (l : List Approval) :
    (l.filter (fun a => decide (a.spender ≠ x))).countP
      (fun a => decide (a.spender = x)) = 0 := by
  rw [List.countP_eq_zero]
  intro a ha
  rcases List.mem_filter.mp ha with ⟨_, hne⟩
  simp at hne ⊢
  exact hne

theorem approvals_unique_nil : ApprovalsUnique [] := by
  intro x
  simp [List.countP_nil]

theorem approvals_unique_filter (l : List Approval) (q : Approval → Bool)
    (h : ApprovalsUnique l) : ApprovalsUnique (l.filter q) :=
  fun x => le_trans (countP_filter_le l _ q) (h x)

theorem approvals_unique_after_set (l : List Approval) (saddr : Addr)
    (ex : Expiration) (h : ApprovalsUnique l) :
    ApprovalsUnique
      (l.filter (fun a => decide (a.spender ≠ saddr)) ++ [Approval.mk saddr ex]) := by
  intro x
  rw [List.countP_append]
  by_cases hx : x = saddr
  · subst hx
    rw [countP_spender_filter_ne]
    simp [List.countP_cons]
  · have h1 : (l.filter (fun a => decide (a.spender ≠ saddr))).countP
        (fun a => decide (a.spender = x)) ≤ 1 :=
      le_trans (countP_filter_le l _ _) (h x)
    have h2 : ([Approval.mk saddr ex].countP (fun a => decide (a.spender = x))) = 0 := by
      rw [List.countP_eq_zero]
      intro a ha
      rw [List.mem_singleton] at ha
      subst ha
      simp
      exact fun hh => hx hh.symm
    omega

theorem filter_eq_of_set (l : List Approval) (saddr : Addr) (ex : Expiration) :
    ((l.filter (fun a => decide (a.spender ≠ saddr)) ++ [Approval.mk saddr ex]).filter
      (fun a => decide (a.spender = saddr))) = [Approval.mk saddr ex] := by
  rw [List.filter_append]
  have h1 : (l.filter (fun a => decide (a.spender ≠ saddr))).filter
      (fun a => decide (a.spender = saddr)) = [] := by
    rw [List.filter_eq_nil_iff]
    intro a ha
    rcases List.mem_filter.mp ha with ⟨_, hne⟩
    simp at hne ⊢
    exact hne
  rw [h1]
  simp

theorem approvalInvMap_save {T : Type} (m : List (String × TokenInfo T)) (k : String)
    (tok' : TokenInfo T) (hinv : ApprovalInvMap m)
    (hnew : ApprovalsUnique tok'.approvals) : ApprovalInvMap (mapSave m k tok') := by
  intro k' tok h
  by_cases hk : k' = k
  · subst hk
    rw [mapLoad_mapSave_self] at h
    injection h with htok
    exact htok ▸ hnew
  · rw [mapLoad_mapSave_ne m k k' tok' hk] at h
    exact hinv k' tok h

theorem approvalInvMap_remove {T : Type} (m : List (String × TokenInfo T))
    (k : String) (hinv : ApprovalInvMap m) : ApprovalInvMap (mapRemove m k) := by
  intro k' tok h
  by_cases hk : k' = k
  · subst hk
    rw [mapLoad_mapRemove_self] at h
    cases h
  · rw [mapLoad_mapRemove_ne m k k' hk] at h
    exact hinv k' tok h

theorem approvalInvMap_of_forall {T : Type} (m : List (String × TokenInfo T))
    (h : ∀ p ∈ m, ApprovalsUnique (p.2.approvals)) : ApprovalInvMap m := by
  intro k tok hl
  unfold mapLoad at hl
  cases hfind : m.find? (fun p => decide (p.1 = k)) with
  | none => rw [hfind] at hl; cases hl
  | some p =>
    rw [hfind] at hl
    injection hl with hv
    exact hv ▸ h p (List.mem_of_find?_eq_some hfind)

theorem execute_preserves_approval_unique {T : Type} (fmt : TokenInfo T → String)
    (s : State T) (env : Env) (info : MessageInfo) (msg : ExecuteMsg T)
    (s' : State T) (r : Response) (hinv : ApprovalInv s)
    (h : execute fmt s env info msg = Except.ok (s', r)) : ApprovalInv s' := by
  cases msg with
  | Mint m =>
    obtain ⟨_, oa, hval, hload, hs, hr⟩ := mint_ok_shape fmt s info m s' r h
    rw [hs]
    show ApprovalInvMap (mapSave s.tokens m.token_id (TokenInfo.mk oa [] m.token_uri m.extension))
    exact approvalInvMap_save _ _ _ hinv approvals_unique_nil
  | Approve spender token_id expires =>
    obtain ⟨tok', hcore⟩ := approve_ok_state s env info spender token_id expires s' r h
    obtain ⟨tok, hload, hcheck, saddr, hval, hs, _, _, _, hcase⟩ :=
      update_approvals_core_ok_shape s env info spender token_id true expires s' tok' hcore
    rw [hs]
    show ApprovalInvMap (mapSave s.tokens token_id tok')
    apply approvalInvMap_save _ _ _ hinv
    rcases hcase with ⟨_, _, happ⟩ | ⟨hfalse, _⟩
    · rw [show ApprovalsUnique tok'.approvals =
        ApprovalsUnique (tok.approvals.filter (fun a => decide (a.spender ≠ saddr)) ++
          [Approval.mk saddr (expires.getD Expiration.default_value)]) from by rw [happ]]
      exact approvals_unique_after_set _ _ _ (hinv token_id tok hload)
    · cases hfalse
  | Revoke spender token_id =>
    obtain ⟨tok', hcore⟩ := revoke_ok_state s env info spender token_id s' r h
    obtain ⟨tok, hload, hcheck, saddr, hval, hs, _, _, _, hcase⟩ :=
      update_approvals_core_ok_shape s env info spender token_id false none s' tok' hcore
    rw [hs]
    show ApprovalInvMap (mapSave s.tokens token_id tok')
    apply approvalInvMap_save _ _ _ hinv
    rcases hcase with ⟨hfalse, _⟩ | ⟨_, happ⟩
    · cases hfalse
    · rw [show ApprovalsUnique tok'.approvals =
        ApprovalsUnique (tok.approvals.filter (fun a => decide (a.spender ≠ saddr)))
        from by rw [happ]]
      exact approvals_unique_filter _ _ (hinv token_id tok hload)
  | ApproveAll operator expires =>
    obtain ⟨hexp, oa, hval, hs⟩ := approve_all_ok_shape s env info operator expires s' r h
    rw [hs]
    exact hinv
  | RevokeAll operator =>
    obtain ⟨oa, hval, hs⟩ := revoke_all_ok_shape s info operator s' r h
    rw [hs]
    exact hinv
  | TransferNft recipient token_id =>
    obtain ⟨tok', hcore⟩ := transfer_nft_ok_state s env info recipient token_id s' r h
    obtain ⟨tok, hload, hcheck, raddr, hval, ht, hs⟩ :=
      transfer_nft_core_ok_shape s env info recipient token_id s' tok' hcore
    rw [hs]
    show ApprovalInvMap (mapSave s.tokens token_id tok')
    apply approvalInvMap_save _ _ _ hinv
    rw [show ApprovalsUnique tok'.approvals = ApprovalsUnique [] from by rw [ht]]
    exact approvals_unique_nil
  | SendNft contract token_id m =>
    obtain ⟨tok', hcore⟩ := send_nft_ok_state s env info contract token_id m s' r h
    obtain ⟨tok, hload, hcheck, raddr, hval, ht, hs⟩ :=
      transfer_nft_core_ok_shape s env info contract token_id s' tok' hcore
    rw [hs]
    show ApprovalInvMap (mapSave s.tokens token_id tok')
    apply approvalInvMap_save _ _ _ hinv
    rw [show ApprovalsUnique tok'.approvals = ApprovalsUnique [] from by rw [ht]]
    exact approvals_unique_nil
  | Burn token_id =>
    obtain ⟨tok, hload, hcheck, hs⟩ := burn_ok_shape s env info token_id s' r h
    rw [hs]
    show ApprovalInvMap (mapRemove s.tokens token_id)
    exact approvalInvMap_remove _ _ hinv
  | Extension =>
    have h' : Except.ok (s, Response.empty) = Except.ok (s', r) := h
    injection h' with hpair
    injection hpair with hs hr
    rw [← hs]
    exact hinv

/-- C7: after a successful Approve for a spender, the record's approvals
hold exactly one entry for that spender, carrying the supplied expiration
(defaulted to `never` when omitted), whether or not a prior approval
existed; and the at-most-one-approval-per-spender invariant is preserved
by every operation of the dispatcher. -/
theorem approve_exactly_one_entry (T : Type) (fmt : TokenInfo T → String)
    (s : State T) (env : Env) (info : MessageInfo) (spender token_id : String)
    (expires : Option Expiration) (s' : State T) (r : Response) :
    (approve s env info spender token_id expires = Except.ok (s', r) →
      ∃ saddr tok', addr_validate spender = Except.ok saddr ∧
        mapLoad s'.tokens token_id = some tok' ∧
        tok'.approvals.filter (fun a => decide (a.spender = saddr)) =
          [Approval.mk saddr (expires.getD Expiration.default_value)]) ∧
    (∀ (msg : ExecuteMsg T) (s2 : State T) (r2 : Response),
      ApprovalInv s → execute fmt s env info msg = Except.ok (s2, r2) →
      ApprovalInv s2) := by
  constructor
  · intro h
    obtain ⟨tok', hcore⟩ := approve_ok_state s env info spender token_id expires s' r h
    obtain ⟨tok, hload, hcheck, saddr, hval, hs, _, _, _, hcase⟩ :=
      update_approvals_core_ok_shape s env info spender token_id true expires s' tok' hcore
    refine ⟨saddr, tok', hval, ?_, ?_⟩
    · rw [hs]
      show mapLoad (mapSave s.tokens token_id tok') token_id = _
      exact mapLoad_mapSave_self _ _ _
    · rcases hcase with ⟨_, _, happ⟩ | ⟨hfalse, _⟩
      · rw [happ]
        exact filter_eq_of_set _ _ _
      · cases hfalse
  · intro msg s2 r2 hinv hexec
    exact execute_preserves_approval_unique fmt s env info msg s2 r2 hinv hexec

/-- C7 witness: re-approving a spender who already held an approval leaves
exactly one entry for that spender, and a concrete mint preserves the
uniqueness invariant. -/
theorem approve_exactly_one_entry_witness :
    approve
        (State.mk ("m") 1 []
          [(("1"), TokenInfo.mk ("alice") [Approval.mk ("bob") Expiration.never] none ())])
        (Env.mk (BlockInfo.mk 5 5)) (MessageInfo.mk ("alice")) ("bob") ("1")
        (some (Expiration.at_height 100)) =
      Except.ok
        (State.mk ("m") 1 []
          [(("1"), TokenInfo.mk ("alice") [Approval.mk ("bob") (Expiration.at_height 100)] none ())],
          Response.mk [(("action"), ("approve")), (("sender"), ("alice")),
            (("spender"), ("bob")), (("token_id"), ("1"))] []) ∧
    (∃ saddr tok', addr_validate ("bob") = Except.ok saddr ∧
      mapLoad (State.mk ("m") 1 []
        [(("1"), TokenInfo.mk ("alice") [Approval.mk ("bob") (Expiration.at_height 100)] none ())] :
          State Unit).tokens ("1") = some tok' ∧
      tok'.approvals.filter (fun a => decide (a.spender = saddr)) =
        [Approval.mk saddr ((some (Expiration.at_height 100)).getD
          Expiration.default_value)]) ∧
    ApprovalInv (State.mk ("m") 1 [] [(("1"), TokenInfo.mk ("bob") [] none ())] :
      State Unit) := by
  refine ⟨by decide, ?_, ?_⟩
  · exact (approve_exactly_one_entry Unit (fun _ => ("tok"))
      (State.mk ("m") 1 []
        [(("1"), TokenInfo.mk ("alice") [Approval.mk ("bob") Expiration.never] none ())])
      (Env.mk (BlockInfo.mk 5 5)) (MessageInfo.mk ("alice")) ("bob") ("1")
      (some (Expiration.at_height 100))
      (State.mk ("m") 1 []
        [(("1"), TokenInfo.mk ("alice") [Approval.mk ("bob") (Expiration.at_height 100)] none ())])
      (Response.mk [(("action"), ("approve")), (("sender"), ("alice")),
        (("spender"), ("bob")), (("token_id"), ("1"))] [])).1 (by decide)
  · exact (approve_exactly_one_entry Unit (fun _ => ("tok"))
      (State.mk ("m") 0 [] []) (Env.mk (BlockInfo.mk 5 5)) (MessageInfo.mk ("m"))
      ("bob") ("1") none (State.mk ("m") 0 [] [])
      (Response.mk [] [])).2
      (ExecuteMsg.Mint (MintMsg.mk ("1") ("bob") none ()))
      (State.mk ("m") 1 [] [(("1"), TokenInfo.mk ("bob") [] none ())])
      (Response.mk
        [(("token_info"), ("tok")), (("action"), ("mint")), (("minter"), ("m")),
         (("owner"), ("bob")), (("token_id"), ("1"))] [])
      (approvalInvMap_of_forall [] (by intro p hp; cases hp)) (by decide)

theorem execute_preserves_supply {T : Type} (fmt : TokenInfo T → String)
    (s : State T) (env : Env) (info : MessageInfo) (msg : ExecuteMsg T)
    (s' : State T) (r : Response) (hinv : SupplyInv s)
    (h : execute fmt s env info msg = Except.ok (s', r)) : SupplyInv s' := by
  obtain ⟨hnd, hcount⟩ := hinv
  cases msg with
  | Mint m =>
    obtain ⟨_, oa, hval, hload, hs, _⟩ := mint_ok_shape fmt s info m s' r h
    rw [hs]
    constructor
    · show (mapKeys (mapSave s.tokens m.token_id
        (TokenInfo.mk oa [] m.token_uri m.extension))).Nodup
      exact mapKeys_mapSave_nodup _ _ _ hnd
    · show (s.token_count + 1) % u64Mod =
        (mapSave s.tokens m.token_id
          (TokenInfo.mk oa [] m.token_uri m.extension)).length % u64Mod
      rw [length_mapSave_of_load_none _ _ _ hload, hcount]
      unfold u64Mod
      omega
  | Approve spender token_id expires =>
    obtain ⟨tok', hcore⟩ := approve_ok_state s env info spender token_id expires s' r h
    obtain ⟨tok, hload, _, saddr, _, hs, _⟩ :=
      update_approvals_core_ok_shape s env info spender token_id true expires s' tok' hcore
    rw [hs]
    refine ⟨mapKeys_mapSave_nodup _ _ _ hnd, ?_⟩
    show s.token_count = (mapSave s.tokens token_id tok').length % u64Mod
    rw [length_mapSave_of_load_some s.tokens token_id tok' tok hnd hload]
    exact hcount
  | Revoke spender token_id =>
    obtain ⟨tok', hcore⟩ := revoke_ok_state s env info spender token_id s' r h
    obtain ⟨tok, hload, _, saddr, _, hs, _⟩ :=
      update_approvals_core_ok_shape s env info spender token_id false none s' tok' hcore
    rw [hs]
    refine ⟨mapKeys_mapSave_nodup _ _ _ hnd, ?_⟩
    show s.token_count = (mapSave s.tokens token_id tok').length % u64Mod
    rw [length_mapSave_of_load_some s.tokens token_id tok' tok hnd hload]
    exact hcount
  | ApproveAll operator expires =>
    obtain ⟨_, oa, _, hs⟩ := approve_all_ok_shape s env info operator expires s' r h
    rw [hs]
    exact ⟨hnd, hcount⟩
  | RevokeAll operator =>
    obtain ⟨oa, _, hs⟩ := revoke_all_ok_shape s info operator s' r h
    rw [hs]
    exact ⟨hnd, hcount⟩
  | TransferNft recipient token_id =>
    obtain ⟨tok', hcore⟩ := transfer_nft_ok_state s env info recipient token_id s' r h
    obtain ⟨tok, hload, _, raddr, _, _, hs⟩ :=
      transfer_nft_core_ok_shape s env info recipient token_id s' tok' hcore
    rw [hs]
    refine ⟨mapKeys_mapSave_nodup _ _ _ hnd, ?_⟩
    show s.token_count = (mapSave s.tokens token_id tok').length % u64Mod
    rw [length_mapSave_of_load_some s.tokens token_id tok' tok hnd hload]
    exact hcount
  | SendNft contract token_id m =>
    obtain ⟨tok', hcore⟩ := send_nft_ok_state s env info contract token_id m s' r h
    obtain ⟨tok, hload, _, raddr, _, _, hs⟩ :=
      transfer_nft_core_ok_shape s env info contract token_id s' tok' hcore
    rw [hs]
    refine ⟨mapKeys_mapSave_nodup _ _ _ hnd, ?_⟩
    show s.token_count = (mapSave s.tokens token_id tok').length % u64Mod
    rw [length_mapSave_of_load_some s.tokens token_id tok' tok hnd hload]
    exact hcount
  | Burn token_id =>
    obtain ⟨tok, hload, _, hs⟩ := burn_ok_shape s env info token_id s' r h
    rw [hs]
    refine ⟨mapKeys_mapRemove_nodup _ _ hnd, ?_⟩
    show (s.token_count + (u64Mod - 1)) % u64Mod =
      (mapRemove s.tokens token_id).length % u64Mod
    have hlen := length_mapRemove_of_load_some s.tokens token_id tok hnd hload
    rw [hcount]
    unfold u64Mod
    unfold u64Mod at hlen
    omega
  | Extension =>
    have h' : Except.ok (s, Response.empty) = Except.ok (s', r) := h
    injection h' with hpair
    injection hpair with hs hr
    rw [← hs]
    exact ⟨hnd, hcount⟩

theorem reachable_supply {T : Type} (fmt : TokenInfo T → String) (s : State T)
    (h : Reachable fmt s) : SupplyInv s := by
  induction h with
  | init minter =>
    refine ⟨List.nodup_nil, ?_⟩
    show (0 : Nat) = (0 : Nat) % u64Mod
    rw [Nat.zero_mod]
  | step s1 s2 env info msg r hreach hexec ih =>
    exact execute_preserves_supply fmt s1 env info msg s2 r ih hexec

/-- C6: in every reachable state the token map has no duplicate ids and
the `u64` supply counter equals the number of token records (reduced
modulo `2 ^ 64`, exact whenever fewer than `2 ^ 64` records exist);
a successful Mint moves the counter by `+1`, a successful Burn by `-1`
(both in wrap-around `u64` arithmetic), and no other operation changes
it. -/
theorem supply_counter_invariant (T : Type) (fmt : TokenInfo T → String) :
    (∀ s : State T, Reachable fmt s →
      (mapKeys s.tokens).Nodup ∧ s.token_count = s.tokens.length % u64Mod ∧
      (s.tokens.length < u64Mod → s.token_count = s.tokens.length)) ∧
    (∀ (s s' : State T) (info : MessageInfo) (m : MintMsg T) (r : Response),
      mint fmt s info m = Except.ok (s', r) →
      s'.token_count = (s.token_count + 1) % u64Mod ∧
      s'.tokens.length = s.tokens.length + 1) ∧
    (∀ (s s' : State T) (env : Env) (info : MessageInfo) (token_id : String)
        (r : Response),
      (mapKeys s.tokens).Nodup → burn s env info token_id = Except.ok (s', r) →
      s'.token_count = (s.token_count + (u64Mod - 1)) % u64Mod ∧
      s'.tokens.length + 1 = s.tokens.length) ∧
    (∀ (s s' : State T) (env : Env) (info : MessageInfo) (spender token_id : String)
        (expires : Option Expiration) (r : Response),
      approve s env info spender token_id expires = Except.ok (s', r) →
      s'.token_count = s.token_count) ∧
    (∀ (s s' : State T) (env : Env) (info : MessageInfo) (spender token_id : String)
        (r : Response),
      revoke s env info spender token_id = Except.ok (s', r) →
      s'.token_count = s.token_count) ∧
    (∀ (s s' : State T) (env : Env) (info : MessageInfo) (recipient token_id : String)
        (r : Response),
      transfer_nft s env info recipient token_id = Except.ok (s', r) →
      s'.token_count = s.token_count) ∧
    (∀ (s s' : State T) (env : Env) (info : MessageInfo)
        (contract token_id m : String) (r : Response),
      send_nft s env info contract token_id m = Except.ok (s', r) →
      s'.token_count = s.token_count) ∧
    (∀ (s s' : State T) (env : Env) (info : MessageInfo) (operator : String)
        (expires : Option Expiration) (r : Response),
      approve_all s env info operator expires = Except.ok (s', r) →
      s'.token_count = s.token_count) ∧
    (∀ (s s' : State T) (info : MessageInfo) (operator : String) (r : Response),
      revoke_all s info operator = Except.ok (s', r) →
      s'.token_count = s.token_count) := by
  refine ⟨?_, ?_, ?_, ?_, ?_, ?_, ?_, ?_, ?_⟩
  · intro s hreach
    obtain ⟨hnd, hcount⟩ := reachable_supply fmt s hreach
    exact ⟨hnd, hcount, fun hlt => by rw [hcount, Nat.mod_eq_of_lt hlt]⟩
  · intro s s' info m r h
    obtain ⟨_, oa, hval, hload, hs, _⟩ := mint_ok_shape fmt s info m s' r h
    rw [hs]
    constructor
    · rfl
    · show (mapSave s.tokens m.token_id
        (TokenInfo.mk oa [] m.token_uri m.extension)).length = s.tokens.length + 1
      exact length_mapSave_of_load_none _ _ _ hload
  · intro s s' env info token_id r hnd h
    obtain ⟨tok, hload, _, hs⟩ := burn_ok_shape s env info token_id s' r h
    rw [hs]
    constructor
    · rfl
    · show (mapRemove s.tokens token_id).length + 1 = s.tokens.length
      exact length_mapRemove_of_load_some s.tokens token_id tok hnd hload
  · intro s s' env info spender token_id expires r h
    obtain ⟨tok', hcore⟩ := approve_ok_state s env info spender token_id expires s' r h
    obtain ⟨tok, _, _, saddr, _, hs, _⟩ :=
      update_approvals_core_ok_shape s env info spender token_id true expires s' tok' hcore
    rw [hs]
  · intro s s' env info spender token_id r h
    obtain ⟨tok', hcore⟩ := revoke_ok_state s env info spender token_id s' r h
    obtain ⟨tok, _, _, saddr, _, hs, _⟩ :=
      update_approvals_core_ok_shape s env info spender token_id false none s' tok' hcore
    rw [hs]
  · intro s s' env info recipient token_id r h
    obtain ⟨tok', hcore⟩ := transfer_nft_ok_state s env info recipient token_id s' r h
    obtain ⟨tok, _, _, raddr, _, _, hs⟩ :=
      transfer_nft_core_ok_shape s env info recipient token_id s' tok' hcore
    rw [hs]
  · intro s s' env info contract token_id m r h
    obtain ⟨tok', hcore⟩ := send_nft_ok_state s env info contract token_id m s' r h
    obtain ⟨tok, _, _, raddr, _, _, hs⟩ :=
      transfer_nft_core_ok_shape s env info contract token_id s' tok' hcore
    rw [hs]
  · intro s s' env info operator expires r h
    obtain ⟨_, oa, _, hs⟩ := approve_all_ok_shape s env info operator expires s' r h
    rw [hs]
  · intro s s' info operator r h
    obtain ⟨oa, _, hs⟩ := revoke_all_ok_shape s info operator s' r h
    rw [hs]

/-- C6 witness: the invariant at the instantiated state, and the counter
effect of one concrete instance of every operation. -/
theorem supply_counter_invariant_witness :
    ((mapKeys (initState Unit ("m")).tokens).Nodup ∧
      (initState Unit ("m")).token_count = (initState Unit ("m")).tokens.length % u64Mod ∧
      ((initState Unit ("m")).tokens.length < u64Mod →
        (initState Unit ("m")).token_count = (initState Unit ("m")).tokens.length)) ∧
    ((State.mk ("m") 1 [] [(("1"), TokenInfo.mk ("bob") [] none ())] :
        State Unit).token_count =
      ((State.mk ("m") 0 [] [] : State Unit).token_count + 1) % u64Mod ∧
      (State.mk ("m") 1 [] [(("1"), TokenInfo.mk ("bob") [] none ())] :
        State Unit).tokens.length =
      (State.mk ("m") 0 [] [] : State Unit).tokens.length + 1) ∧
    ((State.mk ("m") 0 [] [] : State Unit).token_count =
      ((State.mk ("m") 1 [] [(("1"), TokenInfo.mk ("alice") [] none ())] :
        State Unit).token_count + (u64Mod - 1)) % u64Mod) ∧
    ((State.mk ("m") 1 []
        [(("1"), TokenInfo.mk ("alice") [Approval.mk ("bob") (Expiration.at_height 100)] none ())] :
        State Unit).token_count =
      (State.mk ("m") 1 [] [(("1"), TokenInfo.mk ("alice") [] none ())] :
        State Unit).token_count) ∧
    ((State.mk ("m") 1 [] [(("1"), TokenInfo.mk ("carol") [] none ())] :
        State Unit).token_count =
      (State.mk ("m") 1 [] [(("1"), TokenInfo.mk ("alice") [] none ())] :
        State Unit).token_count) ∧
    ((State.mk ("m") 1 [((("alice"), ("dave")), Expiration.at_height 100)]
        [(("1"), TokenInfo.mk ("alice") [] none ())] : State Unit).token_count =
      (State.mk ("m") 1 [] [(("1"), TokenInfo.mk ("alice") [] none ())] :
        State Unit).token_count) := by
  refine ⟨?_, ?_, ?_, ?_, ?_, ?_⟩
  · exact (supply_counter_invariant Unit (fun _ => ("tok"))).1 (initState Unit ("m"))
      (Reachable.init ("m"))
  · exact (supply_counter_invariant Unit (fun _ => ("tok"))).2.1
      (State.mk ("m") 0 [] [])
      (State.mk ("m") 1 [] [(("1"), TokenInfo.mk ("bob") [] none ())])
      (MessageInfo.mk ("m")) (MintMsg.mk ("1") ("bob") none ())
      (Response.mk
        [(("token_info"), ("tok")), (("action"), ("mint")), (("minter"), ("m")),
         (("owner"), ("bob")), (("token_id"), ("1"))] []) (by decide)
  · exact ((supply_counter_invariant Unit (fun _ => ("tok"))).2.2.1
      (State.mk ("m") 1 [] [(("1"), TokenInfo.mk ("alice") [] none ())])
      (State.mk ("m") 0 [] []) (Env.mk (BlockInfo.mk 5 5)) (MessageInfo.mk ("alice"))
      ("1")
      (Response.mk [(("action"), ("burn")), (("sender"), ("alice")),
        (("token_id"), ("1"))] []) (by decide) (by decide)).1
  · exact (supply_counter_invariant Unit (fun _ => ("tok"))).2.2.2.1
      (State.mk ("m") 1 [] [(("1"), TokenInfo.mk ("alice") [] none ())])
      (State.mk ("m") 1 []
        [(("1"), TokenInfo.mk ("alice") [Approval.mk ("bob") (Expiration.at_height 100)] none ())])
      (Env.mk (BlockInfo.mk 5 5)) (MessageInfo.mk ("alice")) ("bob") ("1")
      (some (Expiration.at_height 100))
      (Response.mk [(("action"), ("approve")), (("sender"), ("alice")),
        (("spender"), ("bob")), (("token_id"), ("1"))] []) (by decide)
  · exact (supply_counter_invariant Unit (fun _ => ("tok"))).2.2.2.2.2.1
      (State.mk ("m") 1 [] [(("1"), TokenInfo.mk ("alice") [] none ())])
      (State.mk ("m") 1 [] [(("1"), TokenInfo.mk ("carol") [] none ())])
      (Env.mk (BlockInfo.mk 5 5)) (MessageInfo.mk ("alice")) ("carol") ("1")
      (Response.mk [(("action"), ("transfer_nft")), (("sender"), ("alice")),
        (("recipient"), ("carol")), (("token_id"), ("1"))] []) (by decide)
  · exact (supply_counter_invariant Unit (fun _ => ("tok"))).2.2.2.2.2.2.2.1
      (State.mk ("m") 1 [] [(("1"), TokenInfo.mk ("alice") [] none ())])
      (State.mk ("m") 1 [((("alice"), ("dave")), Expiration.at_height 100)]
        [(("1"), TokenInfo.mk ("alice") [] none ())])
      (Env.mk (BlockInfo.mk 5 5)) (MessageInfo.mk ("alice")) ("dave")
      (some (Expiration.at_height 100))
      (Response.mk [(("action"), ("approve_all")), (("sender"), ("alice")),
        (("operator"), ("dave"))] []) (by decide)

end Cw721
